import Mathlib

/-!
Shallow embedding of the sentrykit package (a Sentry integration for the
Fiber web framework): the client lifecycle and global convenience API from
client.go, and the request middleware, header filtering and context-aware
helpers from the middleware file.  Go maps are modelled as association
lists with assignment-overwrite semantics; the Sentry SDK hub and scope
are modelled by the fields this library touches (tags, user, contexts,
level, captured events, recovered panic values, flush count), with scope
state applied to an event at capture time, as the SDK does.
-/

namespace SentryKit

/-- Association-list lookup with decidable key equality: the Go map read
m[k]. -/
def alookup {κ α : Type} [DecidableEq κ] : List (κ × α) → κ → Option α
  | [], _ => none
  | p :: rest, k => if p.1 = k then some p.2 else alookup rest k

/-- Go map assignment m[k] = v on an association list: overwrite the
existing entry for k, otherwise append a new entry. -/
def mapSet {κ α : Type} [DecidableEq κ] (m : List (κ × α)) (k : κ) (v : α) :
    List (κ × α) :=
  if (alookup m k).isSome then
    m.map (fun p => if p.1 = k then (k, v) else p)
  else m ++ [(k, v)]

theorem alookup_append {κ α : Type} [DecidableEq κ]
    (l₁ l₂ : List (κ × α)) (k : κ) :
    alookup (l₁ ++ l₂) k =
      match alookup l₁ k with
      | some v => some v
      | none => alookup l₂ k := by
  induction l₁ with
  | nil => simp [alookup]
  | cons p rest ih =>
      by_cases h : p.1 = k
      · simp [alookup, h]
      · simp [alookup, h, ih]

theorem mem_of_alookup {κ α : Type} [DecidableEq κ]
    {l : List (κ × α)} {k : κ} {v : α} (h : alookup l k = some v) :
    (k, v) ∈ l := by
  induction l with
  | nil => simp [alookup] at h
  | cons p rest ih =>
      by_cases hpk : p.1 = k
      · simp only [alookup, hpk, if_pos, Option.some.injEq] at h
        obtain ⟨a, b⟩ := p
        dsimp at hpk h
        subst hpk
        subst h
        exact List.mem_cons_self _ _
      · simp only [alookup, hpk, if_neg, not_false_iff] at h
        exact List.mem_cons_of_mem _ (ih h)

theorem alookup_of_nodup_mem {κ α : Type} [DecidableEq κ]
    {l : List (κ × α)} (hnd : (l.map Prod.fst).Nodup)
    {k : κ} {v : α} (hmem : (k, v) ∈ l) :
    alookup l k = some v := by
  induction l with
  | nil => simp at hmem
  | cons p rest ih =>
      rw [List.map_cons] at hnd
      have hnd' := List.nodup_cons.mp hnd
      rcases List.mem_cons.mp hmem with heq | htail
      · subst heq
        simp [alookup]
      · have hpk : p.1 ≠ k := by
          intro hc
          exact hnd'.1 (hc ▸ List.mem_map.mpr ⟨(k, v), htail, rfl⟩)
        simp [alookup, hpk, ih hnd'.2 htail]

theorem alookup_map_overwrite_self {κ α : Type} [DecidableEq κ]
    (m : List (κ × α)) (k : κ) (v : α) (hs : (alookup m k).isSome) :
    alookup (m.map (fun p => if p.1 = k then (k, v) else p)) k = some v := by
  induction m with
  | nil => simp [alookup] at hs
  | cons p rest ih =>
      by_cases hpk : p.1 = k
      · simp [alookup, hpk]
      · simp only [alookup, hpk, if_neg, not_false_iff] at hs
        simp [alookup, hpk, ih hs]

theorem alookup_map_overwrite_ne {κ α : Type} [DecidableEq κ]
    (m : List (κ × α)) (k : κ) (v : α) (k' : κ) (h : k' ≠ k) :
    alookup (m.map (fun p => if p.1 = k then (k, v) else p)) k' =
      alookup m k' := by
  induction m with
  | nil => simp [alookup]
  | cons p rest ih =>
      by_cases hpk : p.1 = k
      · have hkk' : ¬(k = k') := fun hc => h hc.symm
        have hpk' : ¬(p.1 = k') := by rw [hpk]; exact hkk'
        simp [alookup, hpk, hkk', hpk', ih]
      · by_cases hpk' : p.1 = k'
        · simp [alookup, hpk, hpk', h]
        · simp [alookup, hpk, hpk', ih]

theorem alookup_mapSet_self {κ α : Type} [DecidableEq κ]
    (m : List (κ × α)) (k : κ) (v : α) :
    alookup (mapSet m k v) k = some v := by
  unfold mapSet
  by_cases h : (alookup m k).isSome
  · simp only [h, if_pos]
    exact alookup_map_overwrite_self m k v h
  · simp only [h, Bool.false_eq_true, if_neg, not_false_iff]
    rw [alookup_append]
    cases hm : alookup m k with
    | some w => rw [hm] at h; simp at h
    | none => simp [alookup]

theorem alookup_mapSet_ne {κ α : Type} [DecidableEq κ]
    (m : List (κ × α)) (k : κ) (v : α) (k' : κ) (h : k' ≠ k) :
    alookup (mapSet m k v) k' = alookup m k' := by
  unfold mapSet
  by_cases hs : (alookup m k).isSome
  · simp only [hs, if_pos]
    exact alookup_map_overwrite_ne m k v k' h
  · simp only [hs, Bool.false_eq_true, if_neg, not_false_iff]
    rw [alookup_append]
    cases hm : alookup m k' with
    | some w => simp
    | none =>
        have hkk' : ¬(k = k') := fun hc => h hc.symm
        simp [alookup, hkk']

/-- Severity level enumeration of the reporting SDK. -/
inductive Level where
  | debug
  | info
  | warning
  | error
  | fatal
  deriving DecidableEq

/-- User record as set through the scope. -/
structure SentryUser where
  id : String
  email : String
  username : String
  deriving DecidableEq

/-- Value stored in one entry of a context map. -/
inductive CtxVal where
  | str (s : String)
  | int (n : Int)
  | strMap (m : List (String × String))
  deriving DecidableEq

/-- One context: a map from field names to values. -/
abbrev CtxData := List (String × CtxVal)

/-- The scope of a hub: the SDK scope fields this library touches. -/
structure Scope where
  tags : List (String × String) := []
  user : Option SentryUser := none
  contexts : List (String × CtxData) := []
  level : Option Level := none
  deriving DecidableEq

def Scope.setTag (sc : Scope) (k v : String) : Scope :=
  { sc with tags := mapSet sc.tags k v }

def Scope.setUser (sc : Scope) (u : SentryUser) : Scope :=
  { sc with user := some u }

def Scope.setContext (sc : Scope) (k : String) (d : CtxData) : Scope :=
  { sc with contexts := mapSet sc.contexts k d }

def Scope.setLevel (sc : Scope) (l : Level) : Scope :=
  { sc with level := some l }

/-- Typed framework error carrying its own status code (fiber.Error). -/
structure FiberError where
  code : Int
  message : String
  deriving DecidableEq

/-- An error returned by a handler: either a typed framework error or a
plain error value. -/
inductive HandlerError where
  | fiberErr (e : FiberError)
  | plainErr (msg : String)
  deriving DecidableEq

/-- fiber.StatusInternalServerError. -/
def StatusInternalServerError : Int := 500

/-- Status classification performed by the middleware exit phase: start
from StatusInternalServerError and take the code of a typed framework
error when the type assertion succeeds. -/
def errCode : HandlerError → Int
  | .fiberErr e => e.code
  | .plainErr _ => StatusInternalServerError

/-- The text produced by calling Error() on the handler error. -/
def errText : HandlerError → String
  | .fiberErr e => e.message
  | .plainErr m => m

/-- An event assembled at capture time: the exception together with the
snapshot of the capturing hub's scope, which the SDK applies to the event
when the capture call runs. -/
structure Event where
  exn : HandlerError
  scopeAtCapture : Scope
  deriving DecidableEq

/-- A hub: its current scope plus the observable effects of the SDK calls
made through it (captured events, recovered panic values, flush count). -/
structure Hub where
  scope : Scope
  captured : List Event := []
  recovered : List String := []
  flushes : Nat := 0
  deriving DecidableEq

def Hub.setTag (h : Hub) (k v : String) : Hub :=
  { h with scope := h.scope.setTag k v }

def Hub.setUser (h : Hub) (u : SentryUser) : Hub :=
  { h with scope := h.scope.setUser u }

def Hub.setContext (h : Hub) (k : String) (d : CtxData) : Hub :=
  { h with scope := h.scope.setContext k d }

def Hub.captureException (h : Hub) (e : HandlerError) : Hub :=
  { h with captured := h.captured ++ [{ exn := e, scopeAtCapture := h.scope }] }

def Hub.recover (h : Hub) (v : String) : Hub :=
  { h with recovered := h.recovered ++ [v] }

def Hub.flush (h : Hub) : Hub :=
  { h with flushes := h.flushes + 1 }

/-- Middleware configuration: repanic flag, wait-for-delivery flag and the
delivery timeout (milliseconds, passed through opaquely). -/
structure MiddlewareConfig where
  repanic : Bool
  waitForDelivery : Bool
  timeout : Nat
  deriving DecidableEq

/-- Default middleware configuration: no repanic, no blocking delivery,
two-second timeout. -/
def DefaultMiddlewareConfig : MiddlewareConfig :=
  { repanic := false, waitForDelivery := false, timeout := 2000 }

/-- The request attributes the middleware reads from the framework
context: URL, method, query string, raw headers in visit order, client
IP, user agent, route path, the optional user id already present in
request-local storage, and the tenant id route parameter (empty string
when absent, as the framework reports it). -/
structure Request where
  originalURL : String
  method : String
  queryString : String
  headers : List (String × String)
  ip : String
  userAgent : String
  path : String
  localsUserId : Option String
  paramsTenantId : String
  deriving DecidableEq

/-- Outcome of running the rest of the handler chain. -/
inductive HandlerOutcome where
  | ok
  | err (e : HandlerError)
  | panics (v : String)
  deriving DecidableEq

/-- Result of one middleware invocation: a normal return carrying the
returned error, or a propagated panic. -/
inductive MwResult where
  | normal (e : Option HandlerError)
  | panicked (v : String)
  deriving DecidableEq

/-- Observable SDK calls made by the middleware, in program order. -/
inductive Ev where
  | contextEv (key : String)
  | captureEv (e : HandlerError)
  | recoverEv (v : String)
  | flushEv
  | repanicEv (v : String)
  deriving DecidableEq

/-- Output of one middleware invocation: the result handed back to the
framework, the final per-request hub, and the trace of SDK calls. -/
structure MwOutput where
  result : MwResult
  hub : Hub
  trace : List Ev
  deriving DecidableEq

/-- The header-copying step of extractHeaders: one VisitAll callback
invocation, skipping the three sensitive header names. -/
def extractStep (headers : List (String × String)) (kv : String × String) :
    List (String × String) :=
  if kv.1 ≠ "Authorization" ∧ kv.1 ≠ "Cookie" ∧ kv.1 ≠ "X-Api-Key" then
    mapSet headers kv.1 kv.2
  else headers

/-- extractHeaders: visit all request headers in order and copy each into
a fresh map, skipping the sensitive ones. -/
def extractHeaders (hs : List (String × String)) : List (String × String) :=
  hs.foldl extractStep []

/-- The static denylist of sensitive header names. -/
def sensitiveHeaders : List String := ["Authorization", "Cookie", "X-Api-Key"]

/-- The request context the middleware attaches at entry. -/
def requestCtx (req : Request) : CtxData :=
  [("url", .str req.originalURL),
   ("method", .str req.method),
   ("query_string", .str req.queryString),
   ("headers", .strMap (extractHeaders req.headers)),
   ("ip", .str req.ip),
   ("user_agent", .str req.userAgent)]

/-- The error context the middleware attaches after a 5xx capture. -/
def errorDetailsCtx (req : Request) (e : HandlerError) (code : Int) : CtxData :=
  [("error", .str (errText e)),
   ("path", .str req.path),
   ("method", .str req.method),
   ("status", .int code),
   ("ip", .str req.ip),
   ("user_agent", .str req.userAgent)]

/-- Entry phase of the middleware handler: clone the current hub (the new
hub starts from the global scope), attach the request context, the path
and method tags, the optional user, and the optional tenant tag.  The hub
is then stored in request-local storage under the key sentry_hub. -/
def mwEntry (globalScope : Scope) (req : Request) : Hub :=
  let hub : Hub := { scope := globalScope }
  let hub := hub.setContext "request" (requestCtx req)
  let hub := (hub.setTag "path" req.path).setTag "method" req.method
  let hub :=
    match req.localsUserId with
    | some uid => hub.setUser { id := uid, email := "", username := "" }
    | none => hub
  if req.paramsTenantId ≠ "" then hub.setTag "tenant_id" req.paramsTenantId
  else hub

/-- One full run of the middleware handler on a request: the entry phase,
the handler chain execution guarded by the deferred recover, and the exit
phase that classifies a returned error, captures 5xx errors, attaches the
error context, optionally flushes, and returns the handler error
unchanged.  A panic skips the exit phase: the deferred function recovers,
forwards the panic value, optionally flushes, and either re-panics or
lets the middleware return the zero error value. -/
def mwHandle (cfg : MiddlewareConfig) (globalScope : Scope) (req : Request)
    (outcome : HandlerOutcome) : MwOutput :=
  let hub := mwEntry globalScope req
  match outcome with
  | .panics v =>
      let hub := hub.recover v
      let hub := if cfg.waitForDelivery then hub.flush else hub
      { result := if cfg.repanic then .panicked v else .normal none,
        hub := hub,
        trace := [Ev.contextEv "request", Ev.recoverEv v]
          ++ (if cfg.waitForDelivery then [Ev.flushEv] else [])
          ++ (if cfg.repanic then [Ev.repanicEv v] else []) }
  | .ok =>
      let hub := if cfg.waitForDelivery then hub.flush else hub
      { result := .normal none,
        hub := hub,
        trace := [Ev.contextEv "request"]
          ++ (if cfg.waitForDelivery then [Ev.flushEv] else []) }
  | .err e =>
      let code := errCode e
      let hub :=
        if code ≥ 500 then
          (hub.captureException e).setContext "error_details"
            (errorDetailsCtx req e code)
        else hub
      let hub := if cfg.waitForDelivery then hub.flush else hub
      { result := .normal (some e),
        hub := hub,
        trace := [Ev.contextEv "request"]
          ++ (if code ≥ 500 then [Ev.captureEv e, Ev.contextEv "error_details"]
              else [])
          ++ (if cfg.waitForDelivery then [Ev.flushEv] else []) }

/-- Sentry configuration record of client.go.  The trace sample rate is
carried as a rational: the library only passes it through. -/
structure Config where
  DSN : String
  Environment : String
  Release : String
  TracesSampleRate : Rat
  Debug : Bool
  AttachStacktrace : Bool
  ServerName : String
  deriving DecidableEq

/-- Default configuration of client.go. -/
def DefaultConfig : Config :=
  { DSN := "", Environment := "development", Release := "",
    TracesSampleRate := 1, Debug := false, AttachStacktrace := true,
    ServerName := "" }

/-- The client options handed to the SDK initialization call.  The
BeforeSend hook installed by Init is the identity transform and is not
modelled as data. -/
structure ClientOptions where
  Dsn : String
  Environment : String
  Release : String
  TracesSampleRate : Rat
  Debug : Bool
  AttachStacktrace : Bool
  ServerName : String
  deriving DecidableEq

/-- Process-wide SDK state: the installed global client options, when a
client has been installed. -/
structure SdkState where
  client : Option ClientOptions
  deriving DecidableEq

/-- Init of client.go, with the underlying SDK initialization abstracted
as a predicate saying which option records it accepts.  The returned
triple is the error-or-unit result, the SDK state after the call, and
whether the underlying SDK initialization was invoked at all. -/
def Init (sdkAccepts : ClientOptions → Bool) (st : SdkState) (cfg : Config) :
    Except String Unit × SdkState × Bool :=
  if cfg.DSN = "" then ((Except.error "sentry DSN is required"), st, false)
  else
    let cfg :=
      if cfg.Environment = "" then { cfg with Environment := "development" }
      else cfg
    let opts : ClientOptions :=
      { Dsn := cfg.DSN, Environment := cfg.Environment,
        Release := cfg.Release, TracesSampleRate := cfg.TracesSampleRate,
        Debug := cfg.Debug, AttachStacktrace := cfg.AttachStacktrace,
        ServerName := cfg.ServerName }
    if sdkAccepts opts then (Except.ok (), { client := some opts }, true)
    else ((Except.error "failed to initialize Sentry"), st, true)

/-- A message event assembled by the SDK at capture time, carrying the
level read from the current scope. -/
structure MsgEvent where
  message : String
  level : Option Level
  deriving DecidableEq

/-- Global current scope and the stream of captured message events. -/
structure GlobalScopeState where
  scope : Scope
  events : List MsgEvent
  deriving DecidableEq

/-- The SDK-level CaptureMessage: assemble an event from the message and
the current scope, applying the scope's level at capture time, and append
it to the event stream. -/
def sdkCaptureMessage (st : GlobalScopeState) (message : String) :
    GlobalScopeState :=
  { st with
    events := st.events ++ [{ message := message, level := st.scope.level }] }

/-- ConfigureScope with a callback that sets the level: mutate the global
current scope. -/
def sdkConfigureScopeSetLevel (st : GlobalScopeState) (l : Level) :
    GlobalScopeState :=
  { st with scope := st.scope.setLevel l }

/-- CaptureMessage of client.go: capture the message first, then set the
level on the global current scope. -/
def CaptureMessage (st : GlobalScopeState) (message : String) (level : Level) :
    GlobalScopeState :=
  sdkConfigureScopeSetLevel (sdkCaptureMessage st message) level

/-- A value held in request-local storage: the stored hub, or a value of
some other type. -/
inductive LocalVal where
  | hubVal (h : Hub)
  | strVal (s : String)
  | intVal (n : Int)
  deriving DecidableEq

/-- GetHubFromContext: read request-local storage under the key
sentry_hub; when the type assertion to a hub succeeds return the stored
hub, otherwise fall back to the global current hub. -/
def GetHubFromContext (locals : List (String × LocalVal))
    (currentHub : Hub) : Hub :=
  match alookup locals "sentry_hub" with
  | some (.hubVal h) => h
  | _ => currentHub

/-- Identifier of a live hub: hubs are reference values in the source, so
aliasing is modelled by ids into a store. -/
abbrev HubId := Nat

/-- The store of live hub scopes, the id of the global hub, and the next
fresh id. -/
structure HubStore where
  hubs : List (HubId × Scope)
  nextId : HubId
  globalId : HubId
  deriving DecidableEq

/-- The scope of the hub with the given id (default scope when the id is
not live). -/
def HubStore.scopeOf (s : HubStore) (i : HubId) : Scope :=
  (alookup s.hubs i).getD {}

/-- CurrentHub().Clone() at middleware entry: allocate a fresh hub whose
scope is a copy of the global hub's scope; the entry phase then stores the
new hub's id in the request's local storage. -/
def HubStore.cloneGlobal (s : HubStore) : HubStore × HubId :=
  ({ s with
      hubs := s.hubs ++ [(s.nextId, s.scopeOf s.globalId)],
      nextId := s.nextId + 1 },
   s.nextId)

/-- Scope().SetTag on the hub with the given id. -/
def HubStore.setTagOn (s : HubStore) (i : HubId) (k v : String) : HubStore :=
  { s with
    hubs := s.hubs.map (fun p => if p.1 = i then (p.1, p.2.setTag k v) else p) }

/-- SetTagFromContext: resolve the hub from the request's local storage,
falling back to the global hub when no hub is stored, and set the tag on
its scope. -/
def setTagFromContextStore (s : HubStore) (locals : Option HubId)
    (k v : String) : HubStore :=
  s.setTagOn (locals.getD s.globalId) k v

/-- Well-formedness of a hub store: every live id is below the fresh-id
counter. -/
def HubStore.WF (s : HubStore) : Prop := ∀ p ∈ s.hubs, p.1 < s.nextId

/-- Scenario of two middleware-wrapped requests: each clones the global
hub at entry, then each sets the same tag key to its own value through
SetTagFromContext; the boolean chooses the interleaving order of the two
tag writes.  Returns the final store and the two requests' hub ids. -/
def twoRequestRun (s0 : HubStore) (k v1 v2 : String) (b : Bool) :
    HubStore × HubId × HubId :=
  let r1 := s0.cloneGlobal
  let r2 := r1.1.cloneGlobal
  let sEnd :=
    if b then
      setTagFromContextStore
        (setTagFromContextStore r2.1 (some r1.2) k v1) (some r2.2) k v2
    else
      setTagFromContextStore
        (setTagFromContextStore r2.1 (some r2.2) k v2) (some r1.2) k v1
  (sEnd, r1.2, r2.2)

@[simp] theorem captured_setTag (h : Hub) (k v : String) :
    (h.setTag k v).captured = h.captured := rfl

@[simp] theorem captured_setUser (h : Hub) (u : SentryUser) :
    (h.setUser u).captured = h.captured := rfl

@[simp] theorem captured_setContext (h : Hub) (k : String) (d : CtxData) :
    (h.setContext k d).captured = h.captured := rfl

@[simp] theorem captured_recover (h : Hub) (v : String) :
    (h.recover v).captured = h.captured := rfl

@[simp] theorem captured_flush (h : Hub) :
    h.flush.captured = h.captured := rfl

@[simp] theorem captured_captureException (h : Hub) (e : HandlerError) :
    (h.captureException e).captured =
      h.captured ++ [{ exn := e, scopeAtCapture := h.scope }] := rfl

@[simp] theorem recovered_setTag (h : Hub) (k v : String) :
    (h.setTag k v).recovered = h.recovered := rfl

@[simp] theorem recovered_setUser (h : Hub) (u : SentryUser) :
    (h.setUser u).recovered = h.recovered := rfl

@[simp] theorem recovered_setContext (h : Hub) (k : String) (d : CtxData) :
    (h.setContext k d).recovered = h.recovered := rfl

@[simp] theorem recovered_captureException (h : Hub) (e : HandlerError) :
    (h.captureException e).recovered = h.recovered := rfl

@[simp] theorem recovered_flush (h : Hub) :
    h.flush.recovered = h.recovered := rfl

@[simp] theorem recovered_recover (h : Hub) (v : String) :
    (h.recover v).recovered = h.recovered ++ [v] := rfl

@[simp] theorem flushes_setTag (h : Hub) (k v : String) :
    (h.setTag k v).flushes = h.flushes := rfl

@[simp] theorem flushes_setUser (h : Hub) (u : SentryUser) :
    (h.setUser u).flushes = h.flushes := rfl

@[simp] theorem flushes_setContext (h : Hub) (k : String) (d : CtxData) :
    (h.setContext k d).flushes = h.flushes := rfl

@[simp] theorem flushes_captureException (h : Hub) (e : HandlerError) :
    (h.captureException e).flushes = h.flushes := rfl

@[simp] theorem flushes_recover (h : Hub) (v : String) :
    (h.recover v).flushes = h.flushes := rfl

@[simp] theorem flushes_flush (h : Hub) :
    h.flush.flushes = h.flushes + 1 := rfl

theorem mwEntry_captured (gs : Scope) (req : Request) :
    (mwEntry gs req).captured = [] := by
  unfold mwEntry
  cases req.localsUserId <;> by_cases ht : req.paramsTenantId ≠ "" <;>
    simp [ht]

theorem mwEntry_recovered (gs : Scope) (req : Request) :
    (mwEntry gs req).recovered = [] := by
  unfold mwEntry
  cases req.localsUserId <;> by_cases ht : req.paramsTenantId ≠ "" <;>
    simp [ht]

theorem mwEntry_flushes (gs : Scope) (req : Request) :
    (mwEntry gs req).flushes = 0 := by
  unfold mwEntry
  cases req.localsUserId <;> by_cases ht : req.paramsTenantId ≠ "" <;>
    simp [ht]

theorem sensitive_mem_iff (x : String) :
    x ∈ sensitiveHeaders ↔
      (x = "Authorization" ∨ x = "Cookie" ∨ x = "X-Api-Key") := by
  simp [sensitiveHeaders]

theorem alookup_extractStep_ne (m : List (String × String))
    (kv : String × String) (k : String) (h : kv.1 ≠ k) :
    alookup (extractStep m kv) k = alookup m k := by
  unfold extractStep
  split_ifs with hcond
  · exact alookup_mapSet_ne m kv.1 kv.2 k (fun hc => h hc.symm)
  · rfl

theorem alookup_extractStep_sensitive (m : List (String × String))
    (kv : String × String) (k : String) (hk : k ∈ sensitiveHeaders) :
    alookup (extractStep m kv) k = alookup m k := by
  unfold extractStep
  split_ifs with hcond
  · refine alookup_mapSet_ne m kv.1 kv.2 k (fun hc => ?_)
    rw [hc] at hk
    rcases (sensitive_mem_iff kv.1).mp hk with h1 | h1 | h1
    · exact hcond.1 h1
    · exact hcond.2.1 h1
    · exact hcond.2.2 h1
  · rfl

theorem alookup_extractStep_self (m : List (String × String))
    (kv : String × String) (k : String) (hk1 : kv.1 = k)
    (hk : k ∉ sensitiveHeaders) :
    alookup (extractStep m kv) k = some kv.2 := by
  unfold extractStep
  have hcond : kv.1 ≠ "Authorization" ∧ kv.1 ≠ "Cookie" ∧ kv.1 ≠ "X-Api-Key" := by
    rw [hk1]
    refine ⟨fun h1 => hk ?_, fun h1 => hk ?_, fun h1 => hk ?_⟩ <;>
      rw [sensitive_mem_iff] <;> tauto
  rw [if_pos hcond, hk1]
  exact alookup_mapSet_self m k kv.2

theorem alookup_extract_foldl (hs : List (String × String))
    (m : List (String × String)) (k : String) :
    alookup (hs.foldl extractStep m) k =
      if k ∈ sensitiveHeaders then alookup m k
      else
        match alookup hs.reverse k with
        | some v => some v
        | none => alookup m k := by
  induction hs generalizing m with
  | nil =>
      by_cases hk : k ∈ sensitiveHeaders <;> simp [hk, alookup]
  | cons kv rest ih =>
      rw [List.foldl_cons, ih (extractStep m kv), List.reverse_cons,
        alookup_append]
      by_cases hk : k ∈ sensitiveHeaders
      · rw [if_pos hk, if_pos hk, alookup_extractStep_sensitive m kv k hk]
      · rw [if_neg hk, if_neg hk]
        cases hrev : alookup rest.reverse k with
        | some w => rfl
        | none =>
            by_cases hk1 : kv.1 = k
            · rw [alookup_extractStep_self m kv k hk1 hk]
              simp [alookup, hk1]
            · rw [alookup_extractStep_ne m kv k hk1]
              simp [alookup, hk1]

theorem alookup_none_of_lt_bound {α : Type} (l : List (HubId × α))
    (bound : HubId) (h : ∀ p ∈ l, p.1 < bound) (i : HubId)
    (hi : bound ≤ i) : alookup l i = none := by
  cases hl : alookup l i with
  | none => rfl
  | some a =>
      have hm : i < bound := h (i, a) (mem_of_alookup hl)
      exact absurd hm (not_lt.mpr hi)

theorem alookup_map_upd_self {κ α : Type} [DecidableEq κ]
    (l : List (κ × α)) (i : κ) (f : α → α) :
    alookup (l.map (fun p => if p.1 = i then (p.1, f p.2) else p)) i =
      (alookup l i).map f := by
  induction l with
  | nil => simp [alookup]
  | cons p rest ih =>
      by_cases hpi : p.1 = i
      · simp [alookup, hpi]
      · simp [alookup, hpi, ih]

theorem alookup_map_upd_ne {κ α : Type} [DecidableEq κ]
    (l : List (κ × α)) (i j : κ) (f : α → α) (h : j ≠ i) :
    alookup (l.map (fun p => if p.1 = i then (p.1, f p.2) else p)) j =
      alookup l j := by
  induction l with
  | nil => simp [alookup]
  | cons p rest ih =>
      by_cases hpi : p.1 = i
      · have hij : ¬(i = j) := fun hc => h hc.symm
        simp [alookup, hpi, hij, ih]
      · by_cases hpj : p.1 = j
        · simp [alookup, hpi, hpj, h]
        · simp [alookup, hpi, hpj, ih]

theorem alookup_setTagOn_self (s : HubStore) (i : HubId) (k v : String) :
    alookup (s.setTagOn i k v).hubs i =
      (alookup s.hubs i).map (fun sc => sc.setTag k v) :=
  alookup_map_upd_self s.hubs i (fun sc => sc.setTag k v)

theorem alookup_setTagOn_ne (s : HubStore) (i j : HubId) (k v : String)
    (h : j ≠ i) :
    alookup (s.setTagOn i k v).hubs j = alookup s.hubs j :=
  alookup_map_upd_ne s.hubs i j (fun sc => sc.setTag k v) h

theorem alookup_singleton_self {κ α : Type} [DecidableEq κ] (i : κ) (a : α) :
    alookup [(i, a)] i = some a := by simp [alookup]

theorem alookup_singleton_ne {κ α : Type} [DecidableEq κ] (i j : κ) (a : α)
    (h : ¬(i = j)) : alookup [(i, a)] j = none := by simp [alookup, h]

/-- The empty scope. -/
def scope0 : Scope := {}

/-- A sample request used for concrete evaluations. -/
def req0 : Request :=
  { originalURL := "/boom", method := "GET", queryString := "",
    headers := [("Accept", "text/html")], ip := "203.0.113.7",
    userAgent := "curl/8", path := "/boom", localsUserId := none,
    paramsTenantId := "" }

/-- A middleware configuration with blocking delivery enabled. -/
def cfgWait : MiddlewareConfig :=
  { repanic := false, waitForDelivery := true, timeout := 2000 }

/-- A plain (untyped) handler error. -/
def errBoom : HandlerError := .plainErr "boom"

/-- A typed framework error with a 404 status. -/
def err404 : HandlerError := .fiberErr { code := 404, message := "Not Found" }

/-- C7: for every request in which the handler chain completes without
panicking and returns no error, the middleware returns nil and does not
invoke capture on any hub. -/
theorem middleware_ok_returns_nil_no_capture (cfg : MiddlewareConfig)
    (gs : Scope) (req : Request) :
    (mwHandle cfg gs req .ok).result = .normal none ∧
    (mwHandle cfg gs req .ok).hub.captured = [] := by
  unfold mwHandle
  cases hw : cfg.waitForDelivery <;> simp [hw, mwEntry_captured]

/-- C3: for every request whose handler chain returns an error classified
with status below 500, the middleware does not invoke capture, and the
original error is returned unchanged. -/
theorem middleware_sub500_no_capture (cfg : MiddlewareConfig) (gs : Scope)
    (req : Request) (e : HandlerError) (h : errCode e < 500) :
    (mwHandle cfg gs req (.err e)).result = .normal (some e) ∧
    (mwHandle cfg gs req (.err e)).hub.captured = [] := by
  unfold mwHandle
  have h5 : ¬(errCode e ≥ 500) := not_le.mpr h
  cases hw : cfg.waitForDelivery <;> simp [hw, h5, mwEntry_captured]

theorem middleware_sub500_no_capture_witness :
    errCode err404 < 500 ∧
    (mwHandle DefaultMiddlewareConfig scope0 req0 (.err err404)).result
        = .normal (some err404) ∧
    (mwHandle DefaultMiddlewareConfig scope0 req0 (.err err404)).hub.captured
        = [] :=
  ⟨by decide,
   middleware_sub500_no_capture DefaultMiddlewareConfig scope0 req0 err404
     (by decide)⟩

/-- C2: for every request whose handler chain panics, the middleware
recovers and forwards the panic value to the per-request hub's recovery
path; with Repanic unset the middleware returns without re-panicking
(carrying no error), with Repanic set the original panic value re-surfaces
after the forwarding (and after the optional blocking flush). -/
theorem middleware_panic_contract (cfg : MiddlewareConfig) (gs : Scope)
    (req : Request) (v : String) :
    (mwHandle cfg gs req (.panics v)).hub.recovered = [v] ∧
    (mwHandle cfg gs req (.panics v)).result
        = (if cfg.repanic then .panicked v else .normal none) ∧
    (mwHandle cfg gs req (.panics v)).trace
        = [Ev.contextEv "request", Ev.recoverEv v]
            ++ (if cfg.waitForDelivery then [Ev.flushEv] else [])
            ++ (if cfg.repanic then [Ev.repanicEv v] else []) := by
  unfold mwHandle
  cases hw : cfg.waitForDelivery <;> cases hr : cfg.repanic <;>
    simp [hw, hr, mwEntry_recovered]

/-- C6 counterexample: on a request with no panic and no error, with
WaitForDelivery configured, the middleware does perform a blocking flush,
contradicting the claim that a flush occurs only in the panic-recovery
path and the 5xx-capture path. -/
theorem middleware_flushes_on_clean_request :
    (mwHandle cfgWait scope0 req0 .ok).hub.flushes ≠ 0 := by decide

/-- C6 amended: the middleware performs exactly one blocking flush per
request whenever WaitForDelivery is set, regardless of outcome (in the
panic-recovery path for panicking requests, and after error inspection for
all other requests), and never flushes when WaitForDelivery is unset. -/
theorem middleware_flush_iff_waitForDelivery (cfg : MiddlewareConfig)
    (gs : Scope) (req : Request) (outcome : HandlerOutcome) :
    (mwHandle cfg gs req outcome).hub.flushes
      = if cfg.waitForDelivery then 1 else 0 := by
  unfold mwHandle
  cases outcome with
  | ok => cases hw : cfg.waitForDelivery <;> simp [hw, mwEntry_flushes]
  | panics v =>
      cases hw : cfg.waitForDelivery <;> cases hr : cfg.repanic <;>
        simp [hw, hr, mwEntry_flushes]
  | err e =>
      by_cases h5 : errCode e ≥ 500 <;> cases hw : cfg.waitForDelivery <;>
        simp [hw, h5, mwEntry_flushes]

/-- C1: behavior of the 5xx path at a concrete failing input.  The
middleware captures exactly once and returns the original error
unchanged, but the capture call runs before the error context is set, so
the captured event's scope snapshot has no error_details context; only
the final scope of the soon-discarded request hub carries it. -/
theorem middleware_5xx_capture_precedes_error_details :
    (mwHandle DefaultMiddlewareConfig scope0 req0 (.err errBoom)).result
        = .normal (some errBoom) ∧
    ((mwHandle DefaultMiddlewareConfig scope0 req0 (.err errBoom)).hub.captured.map
        (fun ev => (ev.exn, alookup ev.scopeAtCapture.contexts "error_details")))
        = [(errBoom, none)] ∧
    alookup (mwHandle DefaultMiddlewareConfig scope0 req0
        (.err errBoom)).hub.scope.contexts "error_details"
        = some (errorDetailsCtx req0 errBoom 500) ∧
    errCode errBoom = 500 := by decide

/-- C4: the captured headers map excludes exactly the three denylisted
header names and contains every other request header with its value
copied verbatim (for a request whose header names are distinct), and
contains nothing that was not a request header. -/
theorem extractHeaders_denylist (hs : List (String × String))
    (hnd : (hs.map Prod.fst).Nodup) :
    (∀ k ∈ sensitiveHeaders, alookup (extractHeaders hs) k = none) ∧
    (∀ k v, (k, v) ∈ hs → k ∉ sensitiveHeaders →
      alookup (extractHeaders hs) k = some v) ∧
    (∀ k v, alookup (extractHeaders hs) k = some v → (k, v) ∈ hs) := by
  refine ⟨?_, ?_, ?_⟩
  · intro k hk
    rw [extractHeaders, alookup_extract_foldl, if_pos hk]
    rfl
  · intro k v hmem hk
    rw [extractHeaders, alookup_extract_foldl, if_neg hk]
    have hndrev : (hs.reverse.map Prod.fst).Nodup := by
      rw [List.map_reverse]
      exact List.nodup_reverse.mpr hnd
    have hrev : alookup hs.reverse k = some v :=
      alookup_of_nodup_mem hndrev (List.mem_reverse.mpr hmem)
    rw [hrev]
  · intro k v hv
    rw [extractHeaders, alookup_extract_foldl] at hv
    by_cases hk : k ∈ sensitiveHeaders
    · rw [if_pos hk] at hv
      simp [alookup] at hv
    · rw [if_neg hk] at hv
      cases hrev : alookup hs.reverse k with
      | none => rw [hrev] at hv; simp [alookup] at hv
      | some w =>
          rw [hrev] at hv
          have hwv : w = v := by simpa using hv
          subst hwv
          exact List.mem_reverse.mp (mem_of_alookup hrev)

/-- Sample header list containing all three denylisted headers plus
others, with distinct names. -/
def hsSample : List (String × String) :=
  [("Authorization", "Bearer t0"), ("Cookie", "sid=1"), ("X-Api-Key", "k1"),
   ("Accept", "text/html"), ("User-Agent", "curl/8")]

theorem extractHeaders_denylist_witness :
    alookup (extractHeaders hsSample) "Authorization" = none ∧
    alookup (extractHeaders hsSample) "Accept" = some "text/html" :=
  ⟨(extractHeaders_denylist hsSample (by decide)).1 "Authorization" (by decide),
   (extractHeaders_denylist hsSample (by decide)).2.1 "Accept" "text/html"
     (by decide) (by decide)⟩

/-- C5: Init with an empty DSN returns a configuration error, leaves the
SDK state unchanged (no global client is installed), and never invokes
the underlying SDK initialization. -/
theorem Init_empty_dsn (sdkAccepts : ClientOptions → Bool) (st : SdkState)
    (cfg : Config) (h : cfg.DSN = "") :
    Init sdkAccepts st cfg
      = ((Except.error "sentry DSN is required"), st, false) := by
  simp [Init, h]

theorem Init_empty_dsn_witness :
    DefaultConfig.DSN = "" ∧
    Init (fun _ => true) { client := none } DefaultConfig
      = ((Except.error "sentry DSN is required"), { client := none }, false) :=
  ⟨rfl, Init_empty_dsn (fun _ => true) { client := none } DefaultConfig rfl⟩

/-- C9: GetHubFromContext never fails: when request-local storage holds a
hub under the fixed key it returns that hub, and otherwise (key absent or
a value of the wrong type) it returns the global current hub. -/
theorem GetHubFromContext_total (locals : List (String × LocalVal)) (g : Hub) :
    (∀ h, alookup locals "sentry_hub" = some (.hubVal h) →
      GetHubFromContext locals g = h) ∧
    (alookup locals "sentry_hub" = none → GetHubFromContext locals g = g) ∧
    (∀ s, alookup locals "sentry_hub" = some (.strVal s) →
      GetHubFromContext locals g = g) ∧
    (∀ n, alookup locals "sentry_hub" = some (.intVal n) →
      GetHubFromContext locals g = g) := by
  refine ⟨fun h hl => ?_, fun hl => ?_, fun s hl => ?_, fun n hl => ?_⟩ <;>
    simp [GetHubFromContext, hl]

/-- A stored per-request hub used for concrete evaluations. -/
def hubStored : Hub := { scope := { tags := [("path", "/a")] } }

/-- A global hub used for concrete evaluations. -/
def hubGlobal : Hub := { scope := { level := some .error } }

theorem GetHubFromContext_total_witness :
    GetHubFromContext [("sentry_hub", .hubVal hubStored)] hubGlobal
        = hubStored ∧
    GetHubFromContext [] hubGlobal = hubGlobal ∧
    GetHubFromContext [("sentry_hub", .strVal "oops")] hubGlobal
        = hubGlobal :=
  ⟨(GetHubFromContext_total _ _).1 hubStored (by decide),
   (GetHubFromContext_total _ _).2.1 (by decide),
   (GetHubFromContext_total _ _).2.2.1 "oops" (by decide)⟩

/-- C10: CaptureMessage captures the message first (the captured event
carries the scope level from before the call), then writes the level to
the global current scope, where it persists and affects subsequent
captures rather than the captured message itself. -/
theorem CaptureMessage_sets_level_after_capture (st : GlobalScopeState)
    (m : String) (l : Level) :
    (CaptureMessage st m l).events
        = st.events ++ [{ message := m, level := st.scope.level }] ∧
    (CaptureMessage st m l).scope.level = some l ∧
    (∀ m2, (sdkCaptureMessage (CaptureMessage st m l) m2).events
        = st.events ++ [{ message := m, level := st.scope.level }]
            ++ [{ message := m2, level := some l }]) :=
  ⟨rfl, rfl, fun _ => rfl⟩

/-- C8: two middleware-wrapped requests each clone the global hub at
entry, so their hub ids are distinct, and after each request sets the
same tag key to its own value through SetTagFromContext (in either
interleaving order of the two writes), each request's hub scope holds its
own value and neither observes the other's. -/
theorem hub_isolation (s0 : HubStore) (k v1 v2 : String) (hWF : s0.WF)
    (hv : v1 ≠ v2) (b : Bool) :
    (twoRequestRun s0 k v1 v2 b).2.1 ≠ (twoRequestRun s0 k v1 v2 b).2.2 ∧
    alookup ((twoRequestRun s0 k v1 v2 b).1.scopeOf
        (twoRequestRun s0 k v1 v2 b).2.1).tags k = some v1 ∧
    alookup ((twoRequestRun s0 k v1 v2 b).1.scopeOf
        (twoRequestRun s0 k v1 v2 b).2.2).tags k = some v2 ∧
    alookup ((twoRequestRun s0 k v1 v2 b).1.scopeOf
        (twoRequestRun s0 k v1 v2 b).2.1).tags k ≠
      alookup ((twoRequestRun s0 k v1 v2 b).1.scopeOf
        (twoRequestRun s0 k v1 v2 b).2.2).tags k := by
  have hid1 : (twoRequestRun s0 k v1 v2 b).2.1 = s0.nextId := rfl
  have hid2 : (twoRequestRun s0 k v1 v2 b).2.2 = s0.nextId + 1 := rfl
  have hg1 : alookup s0.hubs s0.nextId = none :=
    alookup_none_of_lt_bound s0.hubs s0.nextId hWF s0.nextId le_rfl
  have hg2 : alookup s0.hubs (s0.nextId + 1) = none :=
    alookup_none_of_lt_bound s0.hubs s0.nextId hWF _ (Nat.le_succ _)
  have hS2 : ((s0.cloneGlobal).1.cloneGlobal).1.hubs
      = (s0.hubs ++ [(s0.nextId, s0.scopeOf s0.globalId)])
        ++ [(s0.nextId + 1,
             (s0.cloneGlobal).1.scopeOf (s0.cloneGlobal).1.globalId)] := rfl
  have hinner1 : alookup (s0.hubs ++ [(s0.nextId, s0.scopeOf s0.globalId)])
      s0.nextId = some (s0.scopeOf s0.globalId) := by
    rw [alookup_append, hg1]
    exact alookup_singleton_self _ _
  have hne : s0.nextId ≠ s0.nextId + 1 := Nat.ne_of_lt (Nat.lt_succ_self _)
  have hinner2 : alookup (s0.hubs ++ [(s0.nextId, s0.scopeOf s0.globalId)])
      (s0.nextId + 1) = none := by
    rw [alookup_append, hg2]
    exact alookup_singleton_ne _ _ _ hne
  have hA : alookup ((s0.cloneGlobal).1.cloneGlobal).1.hubs s0.nextId
      = some (s0.scopeOf s0.globalId) := by
    rw [hS2, alookup_append, hinner1]
  have hB : alookup ((s0.cloneGlobal).1.cloneGlobal).1.hubs (s0.nextId + 1)
      = some ((s0.cloneGlobal).1.scopeOf (s0.cloneGlobal).1.globalId) := by
    rw [hS2, alookup_append, hinner2]
    exact alookup_singleton_self _ _
  have hF1 : alookup (twoRequestRun s0 k v1 v2 b).1.hubs s0.nextId
      = some ((s0.scopeOf s0.globalId).setTag k v1) := by
    cases b with
    | true =>
        have he : (twoRequestRun s0 k v1 v2 true).1
            = (((s0.cloneGlobal).1.cloneGlobal).1.setTagOn s0.nextId k
                v1).setTagOn (s0.nextId + 1) k v2 := rfl
        rw [he, alookup_setTagOn_ne _ _ _ _ _ hne,
          alookup_setTagOn_self, hA]
        rfl
    | false =>
        have he : (twoRequestRun s0 k v1 v2 false).1
            = (((s0.cloneGlobal).1.cloneGlobal).1.setTagOn (s0.nextId + 1) k
                v2).setTagOn s0.nextId k v1 := rfl
        rw [he, alookup_setTagOn_self,
          alookup_setTagOn_ne _ _ _ _ _ hne, hA]
        rfl
  have hF2 : alookup (twoRequestRun s0 k v1 v2 b).1.hubs (s0.nextId + 1)
      = some (((s0.cloneGlobal).1.scopeOf
          (s0.cloneGlobal).1.globalId).setTag k v2) := by
    cases b with
    | true =>
        have he : (twoRequestRun s0 k v1 v2 true).1
            = (((s0.cloneGlobal).1.cloneGlobal).1.setTagOn s0.nextId k
                v1).setTagOn (s0.nextId + 1) k v2 := rfl
        rw [he, alookup_setTagOn_self,
          alookup_setTagOn_ne _ _ _ _ _ (fun hc => hne hc.symm), hB]
        rfl
    | false =>
        have he : (twoRequestRun s0 k v1 v2 false).1
            = (((s0.cloneGlobal).1.cloneGlobal).1.setTagOn (s0.nextId + 1) k
                v2).setTagOn s0.nextId k v1 := rfl
        rw [he, alookup_setTagOn_ne _ _ _ _ _ (fun hc => hne hc.symm),
          alookup_setTagOn_self, hB]
        rfl
  have hT1 : alookup ((twoRequestRun s0 k v1 v2 b).1.scopeOf
      (twoRequestRun s0 k v1 v2 b).2.1).tags k = some v1 := by
    rw [hid1, HubStore.scopeOf, hF1]
    exact alookup_mapSet_self _ k v1
  have hT2 : alookup ((twoRequestRun s0 k v1 v2 b).1.scopeOf
      (twoRequestRun s0 k v1 v2 b).2.2).tags k = some v2 := by
    rw [hid2, HubStore.scopeOf, hF2]
    exact alookup_mapSet_self _ k v2
  refine ⟨by rw [hid1, hid2]; exact hne, hT1, hT2, ?_⟩
  rw [hT1, hT2]
  exact fun hc => hv (Option.some.inj hc)

/-- A well-formed initial hub store holding only the global hub. -/
def store0 : HubStore := { hubs := [(0, {})], nextId := 1, globalId := 0 }

theorem hub_isolation_witness :
    store0.WF ∧ "red" ≠ "blue" ∧
    ((twoRequestRun store0 "color" "red" "blue" true).2.1
        ≠ (twoRequestRun store0 "color" "red" "blue" true).2.2 ∧
      alookup ((twoRequestRun store0 "color" "red" "blue" true).1.scopeOf
          (twoRequestRun store0 "color" "red" "blue" true).2.1).tags "color"
          = some "red" ∧
      alookup ((twoRequestRun store0 "color" "red" "blue" true).1.scopeOf
          (twoRequestRun store0 "color" "red" "blue" true).2.2).tags "color"
          = some "blue" ∧
      alookup ((twoRequestRun store0 "color" "red" "blue" true).1.scopeOf
          (twoRequestRun store0 "color" "red" "blue" true).2.1).tags "color" ≠
        alookup ((twoRequestRun store0 "color" "red" "blue" true).1.scopeOf
          (twoRequestRun store0 "color" "red" "blue" true).2.2).tags "color") :=
  ⟨by intro p hp; simp [store0] at hp; subst hp; decide, by decide,
   hub_isolation store0 "color" "red" "blue"
     (by intro p hp; simp [store0] at hp; subst hp; decide) (by decide) true⟩

end SentryKit
